import Mathlib

/-
Verification development for the recording/replay subsystem of the
AoiOpt visual platform (src/visual_plat/canvas_deputy/state_deputy.py).

The Python class `StateDeputy` is embedded shallowly: its mutable object
state becomes the structure `StateDeputy`, each method becomes a function
from the old state to the new state, and a Python exception escaping a
method is modelled by an `Option PyError` component of the result (the
state component then reflects exactly the mutations executed before the
raise, as in Python, where an exception does not roll back `self`).
File I/O (pickle to the record directory) is modelled by an explicit
store mapping paths to `Record` values.
-/

namespace VisualPlat

/-- Mirrors `class RecordType(Enum)` with members `reload = 0`, `adjust = 1`. -/
inductive RecordType
| reload
| adjust
deriving DecidableEq

/-- Mirrors the `RecordUnit` dataclass: `layer_tag`, `record_type`, `record_data`.
The payload (`any` in the source) is an opaque type parameter `Data`. -/
structure RecordUnit (Data : Type) where
  layer_tag : String
  record_type : RecordType
  record_data : Data
deriving DecidableEq

/-- Mirrors the `Record` dataclass: `initial: list[RecordUnit]`,
`updates: list[list[RecordUnit]]`. -/
structure Record (Data : Type) where
  initial : List (RecordUnit Data)
  updates : List (List (RecordUnit Data))
deriving DecidableEq

/-- Modelled from the spec: the render layer class (`LayerBase`,
visual_plat/render_layer/layer_base.py) is not under src/. Per the spec a
layer exposes `reload(data)`, `adjust(data)` and a readable current state
(`layer.data`); the spec's scenario ("reload payload A leaves the layer in
state A") makes reload overwrite the whole state, so a layer is modelled as
holding exactly its current data. -/
structure LayerBase (Data : Type) where
  data : Data
deriving DecidableEq

variable {Data : Type}

/-- Modelled from the spec: `layer.reload(data)` replaces the layer's state
with the payload. -/
def LayerBase.reload (_l : LayerBase Data) (d : Data) : LayerBase Data := ⟨d⟩

/-- Modelled from the spec: `layer.adjust(data)` is underspecified ("second-class
mutation kind"); it is modelled as an arbitrary deterministic update `adjustF`
of the current state by the payload, universally quantified in the theorems. -/
def LayerBase.adjust (adjustF : Data → Data → Data) (l : LayerBase Data) (d : Data) :
    LayerBase Data :=
  ⟨adjustF l.data d⟩

/-- The `layers: dict[str, LayerBase]` member: an insertion-ordered map with
unique keys, embedded as an association list. -/
abbrev Layers (Data : Type) := List (String × LayerBase Data)

/-- Dict lookup `self.layers[layer_tag]`; `none` models `KeyError`. -/
def lookupLayer : Layers Data → String → Option (LayerBase Data)
| [], _ => none
| (t, l) :: rest, tag => if t = tag then some l else lookupLayer rest tag

/-- In-place mutation of the layer object stored under `tag`: the first entry
with that key is replaced (a Python dict holds each key once). -/
def updateLayer : Layers Data → String → LayerBase Data → Layers Data
| [], _, _ => []
| (t, l0) :: rest, tag, l =>
  if t = tag then (t, l) :: rest else (t, l0) :: updateLayer rest tag l

/-- The ordered key list of the layers dict. -/
def layerTags (layers : Layers Data) : List String := layers.map Prod.fst

/-- Python exceptions the embedded methods can raise. -/
inductive PyError
| keyError
| indexError
| typeError
| attributeError
deriving DecidableEq

/-- The mutable object state of `StateDeputy` (the `QMutex` and the class
variable `record_path` are not object state: the mutex serialises the
foreground and background paths, which this sequential embedding already
does, and `record_path` is threaded through the persistence functions). -/
structure StateDeputy (Data : Type) where
  layers : Layers Data
  record : Record Data
  pausing : Bool
  blocked : Bool
  suspended : Bool
  recording : Bool
  replaying : Bool
  play_index : Int
  play_range : Option Nat
  play_record : Option (Record Data)
deriving DecidableEq

/-- Mirrors `__init__` (minus the filesystem side effects): all flags false,
empty record, `play_index = 0`, `play_range = None`, `play_record = None`. -/
def StateDeputy.init (layers : Layers Data) : StateDeputy Data where
  layers := layers
  record := ⟨[], []⟩
  pausing := false
  blocked := false
  suspended := false
  recording := false
  replaying := false
  play_index := 0
  play_range := none
  play_record := none

/-- Mirrors `block`: toggle `self.blocked`. -/
def StateDeputy.block (s : StateDeputy Data) : StateDeputy Data :=
  { s with blocked := !s.blocked }

/-- Mirrors `self.record.updates[-1].append(record)` on a non-empty list:
append `u` to the last step. -/
def appendToLast : List (List (RecordUnit Data)) → RecordUnit Data →
    List (List (RecordUnit Data))
| [], _ => []
| [last], u => [last ++ [u]]
| x :: y :: rest, u => x :: appendToLast (y :: rest) u

/-- Mirrors `StateDeputy.reload`. The layer is mutated first
(`self.layers[layer_tag].reload(data)`); only then, if recording, is the
`RecordUnit` appended — as a fresh singleton step when `new_step`, else onto
`updates[-1]`, which raises `IndexError` when `updates` is empty. A `KeyError`
on the dict lookup aborts before any mutation. -/
def StateDeputy.reload (s : StateDeputy Data) (layer_tag : String) (data : Data)
    (new_step : Bool) : StateDeputy Data × Option PyError :=
  match lookupLayer s.layers layer_tag with
  | none => (s, some PyError.keyError)
  | some l =>
    let s1 := { s with layers := updateLayer s.layers layer_tag (l.reload data) }
    let record : RecordUnit Data := ⟨layer_tag, RecordType.reload, data⟩
    if s1.recording then
      if new_step then
        ({ s1 with record := { s1.record with updates := s1.record.updates ++ [[record]] } },
         none)
      else
        match s1.record.updates with
        | [] => (s1, some PyError.indexError)
        | _ :: _ =>
          ({ s1 with record := { s1.record with updates := appendToLast s1.record.updates record } },
           none)
    else (s1, none)

/-- Mirrors `StateDeputy.adjust`: identical control flow to `reload` with the
layer's `adjust` and `RecordType.adjust`. -/
def StateDeputy.adjust (adjustF : Data → Data → Data) (s : StateDeputy Data)
    (layer_tag : String) (data : Data) (new_step : Bool) :
    StateDeputy Data × Option PyError :=
  match lookupLayer s.layers layer_tag with
  | none => (s, some PyError.keyError)
  | some l =>
    let s1 := { s with layers := updateLayer s.layers layer_tag (l.adjust adjustF data) }
    let record : RecordUnit Data := ⟨layer_tag, RecordType.adjust, data⟩
    if s1.recording then
      if new_step then
        ({ s1 with record := { s1.record with updates := s1.record.updates ++ [[record]] } },
         none)
      else
        match s1.record.updates with
        | [] => (s1, some PyError.indexError)
        | _ :: _ =>
          ({ s1 with record := { s1.record with updates := appendToLast s1.record.updates record } },
           none)
    else (s1, none)

/-- The record-file store: pickled `Record` blobs keyed by path. -/
abbrev FileStore (Data : Type) := List (String × Record Data)

/-- File lookup in the store (most recent write to a path wins). -/
def lookupFile : FileStore Data → String → Option (Record Data)
| [], _ => none
| (p, r) :: rest, path => if p = path then some r else lookupFile rest path

/-- A wall-clock instant, already broken into calendar components as
`time.localtime` does. -/
structure Timestamp where
  year : Nat
  month : Nat
  day : Nat
  hour : Nat
  minute : Nat
  second : Nat
deriving DecidableEq

/-- Zero-padded two-digit rendering of one strftime field (`%y` etc. reduce
their field modulo 100 and pad to width 2). -/
def twoDigit (n : Nat) : String :=
  (if n % 100 < 10 then "0" else "") ++ toString (n % 100)

/-- Model of `time.strftime('%y%m%d-%H%M%S', time.localtime(...))`. -/
def strftimeRcd (t : Timestamp) : String :=
  twoDigit t.year ++ twoDigit t.month ++ twoDigit t.day ++ "-" ++
    twoDigit t.hour ++ twoDigit t.minute ++ twoDigit t.second

/-- Mirrors the static `StateDeputy.save_record`: builds the name
`strftime('%y%m%d-%H%M%S') + f"-{len(record.updates) + 1}"`, writes the pickled
record at `record_path + name + ".rcd"` and returns the path. `record_path`
and the current time are explicit inputs; the pickle dump is modelled as
storing the `Record` value at the path. -/
def StateDeputy.save_record (record_path : String) (now : Timestamp)
    (fs : FileStore Data) (record : Record Data) : String × FileStore Data :=
  let rcd_name := strftimeRcd now ++ "-" ++ toString (record.updates.length + 1)
  let path := record_path ++ rcd_name ++ ".rcd"
  (path, (path, record) :: fs)

/-- Mirrors the static `StateDeputy.load_record`: unpickle the blob at `path`;
`none` models the failure when the file is missing or unreadable. -/
def StateDeputy.load_record (path : String) (fs : FileStore Data) :
    Option (Record Data) :=
  lookupFile fs path

/-- The `for tag, layer in self.layers.items()` loop body shared by
`snapshot` and `start_record`: one `RecordUnit(tag, RecordType.reload, layer.data)`
per layer, in dict order. -/
def snapshotUnits (layers : Layers Data) : List (RecordUnit Data) :=
  layers.map (fun p => ⟨p.1, RecordType.reload, p.2.data⟩)

/-- Mirrors `snapshot`: build a fresh `Record` whose `initial` captures every
layer's current data and save it immediately. -/
def StateDeputy.snapshot (record_path : String) (now : Timestamp)
    (fs : FileStore Data) (s : StateDeputy Data) : String × FileStore Data :=
  StateDeputy.save_record record_path now fs ⟨snapshotUnits s.layers, []⟩

/-- Mirrors `start_record`: guarded by `if not self.recording`; replaces
`self.record` with a fresh `Record` whose `initial` snapshots every layer, then
sets `recording = True`. -/
def StateDeputy.start_record (s : StateDeputy Data) : StateDeputy Data :=
  if s.recording then s
  else { s with record := ⟨snapshotUnits s.layers, []⟩, recording := true }

/-- The `for r in initial: self.reload(r.layer_tag, r.record_data)` loop of
`start_replay` (the keyword `new_step` is left at its default `True`); a raise
inside `reload` propagates, keeping the state mutated so far. -/
def applyInitial : StateDeputy Data → List (RecordUnit Data) →
    StateDeputy Data × Option PyError
| s, [] => (s, none)
| s, u :: rest =>
  match s.reload u.layer_tag u.record_data true with
  | (s1, none) => applyInitial s1 rest
  | (s1, some e) => (s1, some e)

/-- Mirrors `start_replay`: replays `record.initial` through `self.reload`,
stores the record, resets `play_index` to 0 and `play_range` to
`range(len(record.updates))`, and only if `record.updates` is non-empty sets
`replaying` and `suspended` and schedules the async loop (the scheduling side
effect itself is the `ticks` driver below). -/
def StateDeputy.start_replay (s : StateDeputy Data) (record : Record Data) :
    StateDeputy Data × Option PyError :=
  match applyInitial s record.initial with
  | (s1, some e) => (s1, some e)
  | (s1, none) =>
    let s2 := { s1 with
      play_record := some record
      play_index := 0
      play_range := some record.updates.length }
    match record.updates with
    | [] => (s2, none)
    | _ :: _ => ({ s2 with replaying := true, suspended := true }, none)

/-- The membership test `self.play_index in self.play_range`; `none` models the
`TypeError` raised when `play_range` is still `None`. -/
def inPlayRange (i : Int) (r : Option Nat) : Option Bool :=
  match r with
  | none => none
  | some n => some (decide (0 ≤ i ∧ i < (n : Int)))

/-- The `for upd in updates[self.play_index]` loop of `replay_by_index`:
dispatch each unit on its `record_type` to `self.reload` / `self.adjust`
(keyword `new_step` at its default `True`); the `else: raise` branch of the
source is unreachable here because `RecordType` is a closed enumeration. -/
def applyStepUnits (adjustF : Data → Data → Data) : StateDeputy Data →
    List (RecordUnit Data) → StateDeputy Data × Option PyError
| s, [] => (s, none)
| s, u :: rest =>
  match u.record_type with
  | RecordType.reload =>
    match s.reload u.layer_tag u.record_data true with
    | (s1, none) => applyStepUnits adjustF s1 rest
    | (s1, some e) => (s1, some e)
  | RecordType.adjust =>
    match StateDeputy.adjust adjustF s u.layer_tag u.record_data true with
    | (s1, none) => applyStepUnits adjustF s1 rest
    | (s1, some e) => (s1, some e)

/-- Mirrors `replay_by_index` (the mutex lock/unlock frames the body; this
sequential embedding needs no lock): reading `self.play_record.updates` raises
`AttributeError` on `None`; the `in self.play_range` test raises `TypeError` on
`None`; in range, `updates[self.play_index]` is applied unit by unit (an index
at or past `len(updates)` would raise `IndexError`). -/
def StateDeputy.replay_by_index (adjustF : Data → Data → Data)
    (s : StateDeputy Data) : StateDeputy Data × Option PyError :=
  match s.play_record with
  | none => (s, some PyError.attributeError)
  | some rcd =>
    match inPlayRange s.play_index s.play_range with
    | none => (s, some PyError.typeError)
    | some false => (s, none)
    | some true =>
      match rcd.updates[s.play_index.toNat]? with
      | none => (s, some PyError.indexError)
      | some step => applyStepUnits adjustF s step

/-- One non-paused iteration of the `while self.replaying` loop of
`async_replay`: when not replaying the loop body does not run; otherwise
`replay_by_index()`, then `play_index += 1`, then wrap to 0 when it exceeds
`play_range[-1]` (which raises on `None` or an empty range). The sleeps are
timing only. -/
def StateDeputy.async_replay_tick (adjustF : Data → Data → Data)
    (s : StateDeputy Data) : StateDeputy Data × Option PyError :=
  if s.replaying then
    match s.replay_by_index adjustF with
    | (s1, some e) => (s1, some e)
    | (s1, none) =>
      let s2 := { s1 with play_index := s1.play_index + 1 }
      match s2.play_range with
      | none => (s2, some PyError.typeError)
      | some 0 => (s2, some PyError.indexError)
      | some (m + 1) =>
        if s2.play_index > (m : Int) then ({ s2 with play_index := 0 }, none)
        else (s2, none)
  else (s, none)

/-- `k` consecutive iterations of the `async_replay` loop, stopping at the
first escaping exception. -/
def ticks (adjustF : Data → Data → Data) : StateDeputy Data → Nat →
    StateDeputy Data × Option PyError
| s, 0 => (s, none)
| s, k + 1 =>
  match s.async_replay_tick adjustF with
  | (s1, none) => ticks adjustF s1 k
  | (s1, some e) => (s1, some e)

/-- One full replay of a record as the spec describes it and as the scheduler
executes it: `start_replay`, then one `async_replay` iteration per step. -/
def replayRecord (adjustF : Data → Data → Data) (s : StateDeputy Data)
    (record : Record Data) : StateDeputy Data × Option PyError :=
  match s.start_replay record with
  | (s1, some e) => (s1, some e)
  | (s1, none) => ticks adjustF s1 record.updates.length

/-- Mirrors `fast_forward`: only while `replaying and pausing`; if
`play_index + 1` is in range, increment and replay that frame. -/
def StateDeputy.fast_forward (adjustF : Data → Data → Data)
    (s : StateDeputy Data) : StateDeputy Data × Option PyError :=
  if s.replaying && s.pausing then
    match inPlayRange (s.play_index + 1) s.play_range with
    | none => (s, some PyError.typeError)
    | some true =>
      StateDeputy.replay_by_index adjustF { s with play_index := s.play_index + 1 }
    | some false => (s, none)
  else (s, none)

/-- Mirrors `back_forward`: only while `replaying and pausing`; if
`play_index - 1` is in range, decrement and replay that frame. -/
def StateDeputy.back_forward (adjustF : Data → Data → Data)
    (s : StateDeputy Data) : StateDeputy Data × Option PyError :=
  if s.replaying && s.pausing then
    match inPlayRange (s.play_index - 1) s.play_range with
    | none => (s, some PyError.typeError)
    | some true =>
      StateDeputy.replay_by_index adjustF { s with play_index := s.play_index - 1 }
    | some false => (s, none)
  else (s, none)

/-- Mirrors `pause`: while replaying toggle `pausing`, otherwise toggle
`suspended`. -/
def StateDeputy.pause (s : StateDeputy Data) : StateDeputy Data :=
  if s.replaying then { s with pausing := !s.pausing }
  else { s with suspended := !s.suspended }

/-- Mirrors `terminate`: if replaying, clear `replaying` and `suspended` and
snap `play_index` to `play_range[-1]` (the flag writes precede the indexing, so
on a `None` or empty range the flags are already cleared when the raise
escapes); else if recording, clear `recording` and save the current record. -/
def StateDeputy.terminate (record_path : String) (now : Timestamp)
    (fs : FileStore Data) (s : StateDeputy Data) :
    StateDeputy Data × FileStore Data × Option PyError :=
  if s.replaying then
    match s.play_range with
    | none =>
      ({ s with replaying := false, suspended := false }, fs, some PyError.typeError)
    | some 0 =>
      ({ s with replaying := false, suspended := false }, fs, some PyError.indexError)
    | some (m + 1) =>
      ({ s with replaying := false, suspended := false, play_index := (m : Int) },
       fs, none)
  else if s.recording then
    let s1 := { s with recording := false }
    let saved := StateDeputy.save_record record_path now fs s1.record
    (s1, saved.2, none)
  else (s, fs, none)

/-- One foreground `reload`/`adjust` invocation, as data: which entry point,
its `layer_tag`, its payload, and its `new_step` keyword. -/
structure CallSpec (Data : Type) where
  record_type : RecordType
  layer_tag : String
  data : Data
  new_step : Bool
deriving DecidableEq

/-- The `RecordUnit` that the router would append for a call. -/
def CallSpec.toUnit (c : CallSpec Data) : RecordUnit Data :=
  ⟨c.layer_tag, c.record_type, c.data⟩

/-- Dispatch one foreground call to the matching router entry point. -/
def applyCall (adjustF : Data → Data → Data) (s : StateDeputy Data)
    (c : CallSpec Data) : StateDeputy Data × Option PyError :=
  match c.record_type with
  | RecordType.reload => s.reload c.layer_tag c.data c.new_step
  | RecordType.adjust => StateDeputy.adjust adjustF s c.layer_tag c.data c.new_step

/-- A whole foreground call sequence, stopping at the first escaping
exception. -/
def applyCalls (adjustF : Data → Data → Data) : StateDeputy Data →
    List (CallSpec Data) → StateDeputy Data × Option PyError
| s, [] => (s, none)
| s, c :: rest =>
  match applyCall adjustF s c with
  | (s1, none) => applyCalls adjustF s1 rest
  | (s1, some e) => (s1, some e)

/-- The pure per-layer effect of applying one `RecordUnit` to the layers dict:
`none` is the unknown-tag `KeyError`. -/
def applyUnitL (adjustF : Data → Data → Data) (layers : Layers Data)
    (u : RecordUnit Data) : Option (Layers Data) :=
  match lookupLayer layers u.layer_tag with
  | none => none
  | some l =>
    match u.record_type with
    | RecordType.reload => some (updateLayer layers u.layer_tag (l.reload u.record_data))
    | RecordType.adjust =>
      some (updateLayer layers u.layer_tag (l.adjust adjustF u.record_data))

/-- The pure per-layer effect of a unit sequence. -/
def applyUnitsL (adjustF : Data → Data → Data) : Layers Data →
    List (RecordUnit Data) → Option (Layers Data)
| layers, [] => some layers
| layers, u :: rest =>
  match applyUnitL adjustF layers u with
  | none => none
  | some layers1 => applyUnitsL adjustF layers1 rest

/-- The control-surface fields of the deputy that neither `reload` nor `adjust`
(nor their replay-driven invocations) ever write: everything except `layers`
and `record`. -/
def ctlEq (a b : StateDeputy Data) : Prop :=
  a.pausing = b.pausing ∧ a.blocked = b.blocked ∧ a.suspended = b.suspended ∧
  a.recording = b.recording ∧ a.replaying = b.replaying ∧
  a.play_index = b.play_index ∧ a.play_range = b.play_range ∧
  a.play_record = b.play_record

lemma ctlEq_refl (a : StateDeputy Data) : ctlEq a a :=
  ⟨rfl, rfl, rfl, rfl, rfl, rfl, rfl, rfl⟩

lemma ctlEq_trans {a b c : StateDeputy Data} (h1 : ctlEq a b) (h2 : ctlEq b c) :
    ctlEq a c := by
  obtain ⟨p1, b1, s1, r1, y1, i1, g1, d1⟩ := h1
  obtain ⟨p2, b2, s2, r2, y2, i2, g2, d2⟩ := h2
  exact ⟨p1.trans p2, b1.trans b2, s1.trans s2, r1.trans r2, y1.trans y2,
    i1.trans i2, g1.trans g2, d1.trans d2⟩

lemma state_ext {a b : StateDeputy Data} (hl : a.layers = b.layers)
    (hr : a.record = b.record) (hc : ctlEq a b) : a = b := by
  obtain ⟨hp, hb, hs, hrc, hy, hi, hg, hd⟩ := hc
  cases a; cases b
  simp_all

/-- Full outcome contract of one router entry point (`reload` or `adjust`)
invoked on state `s` with unit `u` at keyword `new_step`, where `mutate` is the
per-layer effect of the entry point. -/
def routerOutcome (mutate : LayerBase Data → LayerBase Data) (u : RecordUnit Data)
    (new_step : Bool) (s : StateDeputy Data)
    (out : StateDeputy Data × Option PyError) : Prop :=
  ctlEq out.1 s ∧
  out.1.record.initial = s.record.initial ∧
  (lookupLayer s.layers u.layer_tag = none → out = (s, some PyError.keyError)) ∧
  (∀ l, lookupLayer s.layers u.layer_tag = some l →
    out.1.layers = updateLayer s.layers u.layer_tag (mutate l) ∧
    ((s.recording = true ∧ new_step = false ∧ s.record.updates = []) →
      out.2 = some PyError.indexError ∧ out.1.record = s.record) ∧
    (s.recording = false → out.2 = none ∧ out.1.record = s.record) ∧
    ((s.recording = true ∧ (new_step = true ∨ s.record.updates ≠ [])) →
      out.2 = none ∧
      out.1.record.updates =
        (if new_step then s.record.updates ++ [[u]]
         else appendToLast s.record.updates u)))

lemma reload_outcome (s : StateDeputy Data) (tag : String) (d : Data) (ns : Bool) :
    routerOutcome (fun l => l.reload d) ⟨tag, RecordType.reload, d⟩ ns s
      (s.reload tag d ns) := by
  obtain ⟨lay, ⟨ini, upd⟩, p, bl, su, rc, ry, pi, pr, prd⟩ := s
  unfold routerOutcome StateDeputy.reload
  cases hl : lookupLayer lay tag with
  | none =>
    exact ⟨ctlEq_refl _, rfl, fun _ => rfl, fun l hls => absurd hls (by simp)⟩
  | some l0 =>
    refine ⟨?_, ?_, fun hn => absurd hn (by simp), fun l hls => ?_⟩
    · cases rc <;> cases ns <;> cases upd <;> simp [ctlEq]
    · cases rc <;> cases ns <;> cases upd <;> simp
    · injection hls with hls
      subst hls
      refine ⟨?_, ?_, ?_, ?_⟩
      · cases rc <;> cases ns <;> cases upd <;> simp
      · rintro ⟨hr, hn, hu⟩
        subst hr
        subst hn
        subst hu
        simp
      · intro hr
        subst hr
        cases ns <;> cases upd <;> simp
      · rintro ⟨hr, hcase⟩
        subst hr
        rcases hcase with hn | hu
        · subst hn
          cases upd <;> simp
        · cases upd with
          | nil => exact absurd rfl hu
          | cons x xs => cases ns <;> simp

lemma adjust_outcome (adjustF : Data → Data → Data) (s : StateDeputy Data)
    (tag : String) (d : Data) (ns : Bool) :
    routerOutcome (fun l => l.adjust adjustF d) ⟨tag, RecordType.adjust, d⟩ ns s
      (StateDeputy.adjust adjustF s tag d ns) := by
  obtain ⟨lay, ⟨ini, upd⟩, p, bl, su, rc, ry, pi, pr, prd⟩ := s
  unfold routerOutcome StateDeputy.adjust
  cases hl : lookupLayer lay tag with
  | none =>
    exact ⟨ctlEq_refl _, rfl, fun _ => rfl, fun l hls => absurd hls (by simp)⟩
  | some l0 =>
    refine ⟨?_, ?_, fun hn => absurd hn (by simp), fun l hls => ?_⟩
    · cases rc <;> cases ns <;> cases upd <;> simp [ctlEq]
    · cases rc <;> cases ns <;> cases upd <;> simp
    · injection hls with hls
      subst hls
      refine ⟨?_, ?_, ?_, ?_⟩
      · cases rc <;> cases ns <;> cases upd <;> simp
      · rintro ⟨hr, hn, hu⟩
        subst hr
        subst hn
        subst hu
        simp
      · intro hr
        subst hr
        cases ns <;> cases upd <;> simp
      · rintro ⟨hr, hcase⟩
        subst hr
        rcases hcase with hn | hu
        · subst hn
          cases upd <;> simp
        · cases upd with
          | nil => exact absurd rfl hu
          | cons x xs => cases ns <;> simp

lemma reload_ctl (s : StateDeputy Data) (tag : String) (d : Data) (ns : Bool) :
    ctlEq (s.reload tag d ns).1 s :=
  (reload_outcome s tag d ns).1

lemma adjust_ctl (adjustF : Data → Data → Data) (s : StateDeputy Data)
    (tag : String) (d : Data) (ns : Bool) :
    ctlEq (StateDeputy.adjust adjustF s tag d ns).1 s :=
  (adjust_outcome adjustF s tag d ns).1

/-- `reload` in a non-recording deputy on a resolvable tag: pure layer
mutation, no error, nothing else changes. -/
lemma reload_not_recording (s : StateDeputy Data) (tag : String) (d : Data)
    (ns : Bool) (l : LayerBase Data) (hrec : s.recording = false)
    (hl : lookupLayer s.layers tag = some l) :
    s.reload tag d ns = ({ s with layers := updateLayer s.layers tag (l.reload d) }, none) := by
  have h := reload_outcome s tag d ns
  obtain ⟨hctl, hinit, _, hsome⟩ := h
  obtain ⟨hlay, _, hfalse, _⟩ := hsome l hl
  obtain ⟨herr, hrc⟩ := hfalse hrec
  have h1 : (s.reload tag d ns).1 =
      { s with layers := updateLayer s.layers tag (l.reload d) } := by
    refine state_ext (by simpa using hlay) (by simpa using hrc) ?_
    obtain ⟨a, b, c, d', e, f, g, h'⟩ := hctl
    exact ⟨a, b, c, d', e, f, g, h'⟩
  calc s.reload tag d ns = ((s.reload tag d ns).1, (s.reload tag d ns).2) := rfl
    _ = _ := by rw [h1, herr]

/-- `adjust` in a non-recording deputy on a resolvable tag. -/
lemma adjust_not_recording (adjustF : Data → Data → Data) (s : StateDeputy Data)
    (tag : String) (d : Data) (ns : Bool) (l : LayerBase Data)
    (hrec : s.recording = false) (hl : lookupLayer s.layers tag = some l) :
    StateDeputy.adjust adjustF s tag d ns =
      ({ s with layers := updateLayer s.layers tag (l.adjust adjustF d) }, none) := by
  have h := adjust_outcome adjustF s tag d ns
  obtain ⟨hctl, hinit, _, hsome⟩ := h
  obtain ⟨hlay, _, hfalse, _⟩ := hsome l hl
  obtain ⟨herr, hrc⟩ := hfalse hrec
  have h1 : (StateDeputy.adjust adjustF s tag d ns).1 =
      { s with layers := updateLayer s.layers tag (l.adjust adjustF d) } := by
    refine state_ext (by simpa using hlay) (by simpa using hrc) ?_
    obtain ⟨a, b, c, d', e, f, g, h'⟩ := hctl
    exact ⟨a, b, c, d', e, f, g, h'⟩
  calc StateDeputy.adjust adjustF s tag d ns
      = ((StateDeputy.adjust adjustF s tag d ns).1, (StateDeputy.adjust adjustF s tag d ns).2) := rfl
    _ = _ := by rw [h1, herr]

/-- Failure of the dict lookup leaves the deputy untouched (`reload`). -/
lemma reload_key_error (s : StateDeputy Data) (tag : String) (d : Data) (ns : Bool)
    (hl : lookupLayer s.layers tag = none) :
    s.reload tag d ns = (s, some PyError.keyError) :=
  (reload_outcome s tag d ns).2.2.1 hl

/-- Failure of the dict lookup leaves the deputy untouched (`adjust`). -/
lemma adjust_key_error (adjustF : Data → Data → Data) (s : StateDeputy Data)
    (tag : String) (d : Data) (ns : Bool)
    (hl : lookupLayer s.layers tag = none) :
    StateDeputy.adjust adjustF s tag d ns = (s, some PyError.keyError) :=
  (adjust_outcome adjustF s tag d ns).2.2.1 hl

/-- C7: `start_record` is idempotent — a call while `recording` is already true
is a no-op on the whole state (nothing in `record.initial` or `record.updates`
is touched), so two consecutive calls leave the same state as one. -/
theorem c7_start_record_idempotent (s : StateDeputy Data) :
    (s.recording = true → s.start_record = s) ∧
    s.start_record.start_record = s.start_record := by
  constructor
  · intro h
    simp [StateDeputy.start_record, h]
  · by_cases h : s.recording
    · simp [StateDeputy.start_record, h]
    · simp [StateDeputy.start_record, h]

theorem c7_start_record_idempotent_witness :
    (StateDeputy.init ([("aoi", ⟨(0 : Nat)⟩)] : Layers Nat)).start_record.start_record =
      (StateDeputy.init ([("aoi", ⟨(0 : Nat)⟩)] : Layers Nat)).start_record :=
  (c7_start_record_idempotent
    ((StateDeputy.init ([("aoi", ⟨(0 : Nat)⟩)] : Layers Nat)))).2

/-- C2: `save_record` followed by `load_record` on the returned path yields the
same `Record` (persistence round trip). -/
theorem c2_save_load_round_trip (record_path : String) (now : Timestamp)
    (fs : FileStore Data) (record : Record Data) :
    StateDeputy.load_record
      (StateDeputy.save_record record_path now fs record).1
      (StateDeputy.save_record record_path now fs record).2 = some record := by
  simp [StateDeputy.save_record, StateDeputy.load_record, lookupFile]

/-- C6-counterexample: the generated file name does not end in the step count;
for a record with zero steps the code produces the suffix "-1", not "-0", so
the claim's naming law fails at this input. -/
theorem c6_counterexample :
    (StateDeputy.save_record "record/" ⟨24, 1, 2, 3, 4, 5⟩ ([] : FileStore Nat)
        ⟨[], []⟩).1 ≠
      "record/" ++ strftimeRcd ⟨24, 1, 2, 3, 4, 5⟩ ++ "-" ++
        toString ((⟨[], []⟩ : Record Nat)).updates.length ++ ".rcd" := by
  decide

/-- C6 (amended): `save_record` names the file from the `%y%m%d-%H%M%S`
timestamp concatenated with the step count PLUS ONE (`len(record.updates) + 1`),
writes the record to the configured record directory under that path, and
returns the path. -/
theorem c6_save_naming (record_path : String) (now : Timestamp)
    (fs : FileStore Data) (record : Record Data) :
    (StateDeputy.save_record record_path now fs record).1 =
      record_path ++ (strftimeRcd now ++ "-" ++ toString (record.updates.length + 1)) ++ ".rcd" ∧
    StateDeputy.load_record
      (record_path ++ (strftimeRcd now ++ "-" ++ toString (record.updates.length + 1)) ++ ".rcd")
      (StateDeputy.save_record record_path now fs record).2 = some record := by
  constructor
  · simp [StateDeputy.save_record]
  · simp [StateDeputy.save_record, StateDeputy.load_record, lookupFile]

/-- C3-counterexample: with `recording == true`, `new_step == false` and no step
opened yet, the call does fail with the invalid-state `IndexError`, but the
addressed layer has already been mutated — refuting the claim that the router
fails before either effect and leaves the layer unmutated. -/
theorem c3_counterexample :
    (({ StateDeputy.init ([("aoi", ⟨(0 : Nat)⟩)] : Layers Nat) with recording := true }).reload
        "aoi" 7 false).2 = some PyError.indexError ∧
    (({ StateDeputy.init ([("aoi", ⟨(0 : Nat)⟩)] : Layers Nat) with recording := true }).reload
        "aoi" 7 false).1.layers ≠
      ({ StateDeputy.init ([("aoi", ⟨(0 : Nat)⟩)] : Layers Nat) with recording := true }).layers := by
  decide

/-- C3 (amended): for every `reload`/`adjust` call, a failure resolving
`layer_tag` aborts before either effect; on a resolvable tag the layer mutation
always takes effect, and then either the recording append also takes effect (or
recording is inactive) with no error, or — recording active, `new_step` false,
no step opened — the call fails with the invalid-state `IndexError` AFTER the
layer mutation, leaving the in-progress record unchanged. -/
theorem c3_router_atomicity (adjustF : Data → Data → Data) (s : StateDeputy Data)
    (tag : String) (d : Data) (ns : Bool) :
    routerOutcome (fun l => l.reload d) ⟨tag, RecordType.reload, d⟩ ns s
      (s.reload tag d ns) ∧
    routerOutcome (fun l => l.adjust adjustF d) ⟨tag, RecordType.adjust, d⟩ ns s
      (StateDeputy.adjust adjustF s tag d ns) :=
  ⟨reload_outcome s tag d ns, adjust_outcome adjustF s tag d ns⟩

theorem c3_router_atomicity_witness :
    (({ StateDeputy.init ([("aoi", ⟨(0 : Nat)⟩)] : Layers Nat) with recording := true }).reload
        "aoi" 7 false).2 = some PyError.indexError ∧
    (({ StateDeputy.init ([("aoi", ⟨(0 : Nat)⟩)] : Layers Nat) with recording := true }).reload
        "aoi" 7 false).1.record =
      ({ StateDeputy.init ([("aoi", ⟨(0 : Nat)⟩)] : Layers Nat) with recording := true }).record := by
  have h := (c3_router_atomicity (fun a _ => a)
      { StateDeputy.init ([("aoi", ⟨(0 : Nat)⟩)] : Layers Nat) with recording := true }
      "aoi" 7 false).1
  exact (h.2.2.2 ⟨(0 : Nat)⟩ (by decide)).2.1 ⟨rfl, rfl, rfl⟩

/-- C10: neither `reload` nor `adjust` reads `suspended` — the result on a
state with `suspended` forced to any value `b` is exactly the result on the
original state with `suspended` forced to `b`, so the layer mutation, the
recording append and the raised error are identical whether `suspended` is
true or false, and no update is ever rejected because of suspension. -/
theorem c10_suspended_noninterference (adjustF : Data → Data → Data)
    (s : StateDeputy Data) (b : Bool) (tag : String) (d : Data) (ns : Bool) :
    StateDeputy.reload { s with suspended := b } tag d ns =
      ({ (s.reload tag d ns).1 with suspended := b }, (s.reload tag d ns).2) ∧
    StateDeputy.adjust adjustF { s with suspended := b } tag d ns =
      ({ (StateDeputy.adjust adjustF s tag d ns).1 with suspended := b },
        (StateDeputy.adjust adjustF s tag d ns).2) := by
  obtain ⟨lay, ⟨ini, upd⟩, p, bl, su, rc, ry, pi, pr, prd⟩ := s
  constructor
  · unfold StateDeputy.reload
    cases hl : lookupLayer lay tag
    · rfl
    · cases rc <;> cases ns <;> cases upd <;> rfl
  · unfold StateDeputy.adjust
    cases hl : lookupLayer lay tag
    · rfl
    · cases rc <;> cases ns <;> cases upd <;> rfl

/-- Replaying units through the router never touches the control-surface
fields. -/
lemma applyStepUnits_ctl (adjustF : Data → Data → Data)
    (us : List (RecordUnit Data)) :
    ∀ s : StateDeputy Data, ctlEq (applyStepUnits adjustF s us).1 s := by
  induction us with
  | nil => intro s; exact ctlEq_refl s
  | cons u rest ih =>
    intro s
    cases hu : u.record_type
    · simp only [applyStepUnits, hu]
      rcases hc : s.reload u.layer_tag u.record_data true with ⟨s1, e⟩
      have h1 : ctlEq s1 s := by
        have h2 := reload_ctl s u.layer_tag u.record_data true
        rwa [hc] at h2
      cases e
      · exact ctlEq_trans (ih s1) h1
      · exact h1
    · simp only [applyStepUnits, hu]
      rcases hc : StateDeputy.adjust adjustF s u.layer_tag u.record_data true with ⟨s1, e⟩
      have h1 : ctlEq s1 s := by
        have h2 := adjust_ctl adjustF s u.layer_tag u.record_data true
        rwa [hc] at h2
      cases e
      · exact ctlEq_trans (ih s1) h1
      · exact h1

/-- `replay_by_index` never touches the control-surface fields (in particular
it never writes `play_index`). -/
lemma replay_by_index_ctl (adjustF : Data → Data → Data) (s : StateDeputy Data) :
    ctlEq (s.replay_by_index adjustF).1 s := by
  unfold StateDeputy.replay_by_index
  split
  · exact ctlEq_refl s
  · split
    · exact ctlEq_refl s
    · exact ctlEq_refl s
    · split
      · exact ctlEq_refl s
      · exact applyStepUnits_ctl adjustF _ s

/-- C5-counterexample: at the last valid index, `fast_forward` is a no-op but
`back_forward` still steps back, so the ff-then-bf sequence does NOT return
`play_index` to its original value. -/
theorem c5_counterexample :
    (StateDeputy.back_forward (fun a _ => a)
        (StateDeputy.fast_forward (fun a _ => a)
          { StateDeputy.init ([("aoi", ⟨(0 : Nat)⟩)] : Layers Nat) with
              replaying := true, pausing := true, play_index := 1,
              play_range := some 2,
              play_record := some ⟨[], [[⟨"aoi", RecordType.reload, 1⟩],
                [⟨"aoi", RecordType.reload, 2⟩]]⟩ }).1).1.play_index ≠ (1 : Int) := by
  decide

/-- While `replaying && pausing` with `play_index + 1` in range, `fast_forward`
is exactly "increment the cursor, then replay that frame". -/
lemma fast_forward_step (adjustF : Data → Data → Data) (u : StateDeputy Data)
    (n : Nat) (hre : u.replaying = true) (hpa : u.pausing = true)
    (hr : u.play_range = some n)
    (hin : 0 ≤ u.play_index + 1 ∧ u.play_index + 1 < (n : Int)) :
    StateDeputy.fast_forward adjustF u =
      StateDeputy.replay_by_index adjustF { u with play_index := u.play_index + 1 } := by
  have h1 : inPlayRange (u.play_index + 1) u.play_range = some true := by
    rw [hr]
    unfold inPlayRange
    simp only [Option.some.injEq, decide_eq_true_eq]
    exact hin
  have hcond : (u.replaying && u.pausing) = true := by simp [hre, hpa]
  unfold StateDeputy.fast_forward
  rw [if_pos hcond, h1]

/-- While `replaying && pausing` with `play_index - 1` in range, `back_forward`
moves the cursor back exactly one step. -/
lemma back_forward_play_index (adjustF : Data → Data → Data) (u : StateDeputy Data)
    (n : Nat) (hre : u.replaying = true) (hpa : u.pausing = true)
    (hr : u.play_range = some n)
    (hin : 0 ≤ u.play_index - 1 ∧ u.play_index - 1 < (n : Int)) :
    (StateDeputy.back_forward adjustF u).1.play_index = u.play_index - 1 := by
  have h1 : inPlayRange (u.play_index - 1) u.play_range = some true := by
    rw [hr]
    unfold inPlayRange
    simp only [Option.some.injEq, decide_eq_true_eq]
    exact hin
  have hcond : (u.replaying && u.pausing) = true := by simp [hre, hpa]
  unfold StateDeputy.back_forward
  rw [if_pos hcond, h1]
  show (StateDeputy.replay_by_index adjustF
      { u with play_index := u.play_index - 1 }).1.play_index = u.play_index - 1
  exact (replay_by_index_ctl adjustF
    { u with play_index := u.play_index - 1 }).2.2.2.2.2.1

/-- C5 (amended): while `replaying && pausing`, provided `play_index + 1` is
still strictly below the step count (i.e. the cursor is not already on the last
step), `fast_forward()` then `back_forward()` returns `play_index` to its
original value. -/
theorem c5_step_round_trip (adjustF : Data → Data → Data) (s : StateDeputy Data)
    (n : Nat) (hre : s.replaying = true) (hpa : s.pausing = true)
    (hr : s.play_range = some n) (hlo : 0 ≤ s.play_index)
    (hhi : s.play_index + 1 < (n : Int)) :
    (StateDeputy.back_forward adjustF
        (StateDeputy.fast_forward adjustF s).1).1.play_index = s.play_index := by
  rw [fast_forward_step adjustF s n hre hpa hr ⟨by omega, hhi⟩]
  have hv := replay_by_index_ctl adjustF { s with play_index := s.play_index + 1 }
  obtain ⟨hvp, _, _, _, hvy, hvi, hvg, _⟩ := hv
  have hvi1 : (StateDeputy.replay_by_index adjustF
      { s with play_index := s.play_index + 1 }).1.play_index = s.play_index + 1 := hvi
  have hb := back_forward_play_index adjustF
    (StateDeputy.replay_by_index adjustF { s with play_index := s.play_index + 1 }).1 n
    (hvy.trans hre) (hvp.trans hpa) (hvg.trans hr) (by rw [hvi1]; constructor <;> omega)
  rw [hb, hvi1]
  omega

theorem c5_step_round_trip_witness :
    (StateDeputy.back_forward (fun a _ => a)
        (StateDeputy.fast_forward (fun a _ => a)
          { StateDeputy.init ([("aoi", ⟨(0 : Nat)⟩)] : Layers Nat) with
              replaying := true, pausing := true, play_index := 0,
              play_range := some 2,
              play_record := some ⟨[], [[⟨"aoi", RecordType.reload, 1⟩],
                [⟨"aoi", RecordType.reload, 2⟩]]⟩ }).1).1.play_index =
      ({ StateDeputy.init ([("aoi", ⟨(0 : Nat)⟩)] : Layers Nat) with
          replaying := true, pausing := true, play_index := 0,
          play_range := some 2,
          play_record := some ⟨[], [[⟨"aoi", RecordType.reload, 1⟩],
            [⟨"aoi", RecordType.reload, 2⟩]]⟩ } : StateDeputy Nat).play_index :=
  c5_step_round_trip (fun a _ => a) _ 2 rfl rfl rfl (by decide) (by decide)

/-- Replaying a record's `initial` list through `self.reload` leaves the
in-progress record untouched as long as the deputy is not recording (and it
stays not recording). -/
lemma applyInitial_record (units : List (RecordUnit Data)) :
    ∀ s : StateDeputy Data, s.recording = false →
      (applyInitial s units).1.record = s.record ∧
      (applyInitial s units).1.recording = false := by
  induction units with
  | nil => intro s h; exact ⟨rfl, h⟩
  | cons u rest ih =>
    intro s h
    rcases hc : s.reload u.layer_tag u.record_data true with ⟨s1, e⟩
    have hrec1 : s1.recording = false := by
      have h2 := (reload_ctl s u.layer_tag u.record_data true).2.2.2.1
      rw [hc] at h2
      exact h2.trans h
    have hrd1 : s1.record = s.record := by
      cases hl : lookupLayer s.layers u.layer_tag
      · have h2 := reload_key_error s u.layer_tag u.record_data true hl
        rw [hc] at h2
        injection h2 with h3 _
        rw [h3]
      · rename_i l
        have h2 := reload_not_recording s u.layer_tag u.record_data true l h hl
        rw [hc] at h2
        injection h2 with h3 _
        rw [h3]
    simp only [applyInitial, hc]
    cases e
    · obtain ⟨ha, hb⟩ := ih s1 hrec1
      exact ⟨ha.trans hrd1, hb⟩
    · exact ⟨hrd1, hrec1⟩

/-- C8-counterexample: with `recording == true`, applying a record's `initial`
inside `start_replay` DOES append to the in-progress recording log (each
initial unit lands as a fresh step), refuting the claim for that state. -/
theorem c8_counterexample :
    (({ StateDeputy.init ([("aoi", ⟨(0 : Nat)⟩)] : Layers Nat) with
        recording := true }).start_replay
          ⟨[⟨"aoi", RecordType.reload, 1⟩], []⟩).1.record.updates ≠
      ({ StateDeputy.init ([("aoi", ⟨(0 : Nat)⟩)] : Layers Nat) with
        recording := true }).record.updates := by
  decide

/-- C8 (amended): provided the deputy is not recording (the only state the
record/replay lifecycle produces, since recording and replaying are mutually
exclusive there), `start_replay`'s application of `record.initial` appends
nothing: the controller's in-progress record is unchanged. -/
theorem c8_replay_initial_recording_inert (s : StateDeputy Data)
    (rcd : Record Data) (h : s.recording = false) :
    (s.start_replay rcd).1.record = s.record := by
  unfold StateDeputy.start_replay
  rcases hai : applyInitial s rcd.initial with ⟨s1, e⟩
  have h1 := applyInitial_record rcd.initial s h
  rw [hai] at h1
  cases e
  · cases rcd.updates
    · exact h1.1
    · exact h1.1
  · exact h1.1

theorem c8_replay_initial_recording_inert_witness :
    ((StateDeputy.init ([("aoi", ⟨(0 : Nat)⟩)] : Layers Nat)).start_replay
        ⟨[⟨"aoi", RecordType.reload, 1⟩], []⟩).1.record =
      (StateDeputy.init ([("aoi", ⟨(0 : Nat)⟩)] : Layers Nat)).record :=
  c8_replay_initial_recording_inert _ _ rfl

/-- A replaying `async_replay` iteration whose frame replay raises: the
exception escapes before the cursor advances. -/
lemma async_tick_error (adjustF : Data → Data → Data) (s s1 : StateDeputy Data)
    (e : PyError) (hre : s.replaying = true)
    (hrb : s.replay_by_index adjustF = (s1, some e)) :
    s.async_replay_tick adjustF = (s1, some e) := by
  unfold StateDeputy.async_replay_tick
  rw [if_pos hre, hrb]

/-- A replaying `async_replay` iteration whose frame replay succeeds: the
cursor advances by one and wraps to 0 past the last valid index. -/
lemma async_tick_success (adjustF : Data → Data → Data) (s s1 : StateDeputy Data)
    (m : Nat) (hre : s.replaying = true)
    (hrb : s.replay_by_index adjustF = (s1, none))
    (h1g : s1.play_range = some (m + 1)) :
    s.async_replay_tick adjustF =
      if s1.play_index + 1 > (m : Int) then ({ s1 with play_index := 0 }, none)
      else ({ s1 with play_index := s1.play_index + 1 }, none) := by
  unfold StateDeputy.async_replay_tick
  rw [if_pos hre, hrb]
  dsimp only
  rw [h1g]

/-- `terminate` during replay: clear the flags and snap the cursor to the last
valid index. -/
lemma terminate_replaying (record_path : String) (now : Timestamp)
    (fs : FileStore Data) (s : StateDeputy Data) (m : Nat)
    (hre : s.replaying = true) (hg : s.play_range = some (m + 1)) :
    s.terminate record_path now fs =
      ({ s with replaying := false, suspended := false, play_index := (m : Int) },
        fs, none) := by
  unfold StateDeputy.terminate
  rw [if_pos hre, hg]

/-- `fast_forward` keeps the cursor inside the bounds it started in. -/
lemma fast_forward_bounds (adjustF : Data → Data → Data) (s : StateDeputy Data)
    (n : Nat) (hg : s.play_range = some n) (hlo : 0 ≤ s.play_index)
    (hhi : s.play_index < (n : Int)) :
    0 ≤ (StateDeputy.fast_forward adjustF s).1.play_index ∧
    (StateDeputy.fast_forward adjustF s).1.play_index < (n : Int) := by
  unfold StateDeputy.fast_forward
  by_cases hc : (s.replaying && s.pausing) = true
  · rw [if_pos hc]
    by_cases hP : 0 ≤ s.play_index + 1 ∧ s.play_index + 1 < (n : Int)
    · have h1 : inPlayRange (s.play_index + 1) s.play_range = some true := by
        rw [hg]
        unfold inPlayRange
        simp only [Option.some.injEq, decide_eq_true_eq]
        exact hP
      rw [h1]
      show 0 ≤ (StateDeputy.replay_by_index adjustF
          { s with play_index := s.play_index + 1 }).1.play_index ∧
        (StateDeputy.replay_by_index adjustF
          { s with play_index := s.play_index + 1 }).1.play_index < (n : Int)
      rw [(replay_by_index_ctl adjustF
        { s with play_index := s.play_index + 1 }).2.2.2.2.2.1]
      exact ⟨hP.1, hP.2⟩
    · have h1 : inPlayRange (s.play_index + 1) s.play_range = some false := by
        rw [hg]
        unfold inPlayRange
        simp only [Option.some.injEq, decide_eq_false_iff_not]
        exact hP
      rw [h1]
      exact ⟨hlo, hhi⟩
  · rw [if_neg hc]
    exact ⟨hlo, hhi⟩

/-- `back_forward` keeps the cursor inside the bounds it started in. -/
lemma back_forward_bounds (adjustF : Data → Data → Data) (s : StateDeputy Data)
    (n : Nat) (hg : s.play_range = some n) (hlo : 0 ≤ s.play_index)
    (hhi : s.play_index < (n : Int)) :
    0 ≤ (StateDeputy.back_forward adjustF s).1.play_index ∧
    (StateDeputy.back_forward adjustF s).1.play_index < (n : Int) := by
  unfold StateDeputy.back_forward
  by_cases hc : (s.replaying && s.pausing) = true
  · rw [if_pos hc]
    by_cases hP : 0 ≤ s.play_index - 1 ∧ s.play_index - 1 < (n : Int)
    · have h1 : inPlayRange (s.play_index - 1) s.play_range = some true := by
        rw [hg]
        unfold inPlayRange
        simp only [Option.some.injEq, decide_eq_true_eq]
        exact hP
      rw [h1]
      show 0 ≤ (StateDeputy.replay_by_index adjustF
          { s with play_index := s.play_index - 1 }).1.play_index ∧
        (StateDeputy.replay_by_index adjustF
          { s with play_index := s.play_index - 1 }).1.play_index < (n : Int)
      rw [(replay_by_index_ctl adjustF
        { s with play_index := s.play_index - 1 }).2.2.2.2.2.1]
      exact ⟨hP.1, hP.2⟩
    · have h1 : inPlayRange (s.play_index - 1) s.play_range = some false := by
        rw [hg]
        unfold inPlayRange
        simp only [Option.some.injEq, decide_eq_false_iff_not]
        exact hP
      rw [h1]
      exact ⟨hlo, hhi⟩
  · rw [if_neg hc]
    exact ⟨hlo, hhi⟩

/-- C4: while a replay is active over a record with non-empty steps,
`play_index` stays in `[0, step_count)` after an autoplay tick, after
`fast_forward`, after `back_forward` and after `terminate` (which snaps it to
the last valid index); and a successful tick at the last valid index wraps the
cursor to 0 while leaving `replaying` set. -/
theorem c4_play_index_invariant (adjustF : Data → Data → Data)
    (record_path : String) (now : Timestamp) (fs : FileStore Data)
    (s : StateDeputy Data) (rcd : Record Data)
    (hre : s.replaying = true) (_hpr : s.play_record = some rcd)
    (hrange : s.play_range = some rcd.updates.length) (hne : rcd.updates ≠ [])
    (hlo : 0 ≤ s.play_index) (hhi : s.play_index < (rcd.updates.length : Int)) :
    (0 ≤ (s.async_replay_tick adjustF).1.play_index ∧
      (s.async_replay_tick adjustF).1.play_index < (rcd.updates.length : Int)) ∧
    (0 ≤ (StateDeputy.fast_forward adjustF s).1.play_index ∧
      (StateDeputy.fast_forward adjustF s).1.play_index < (rcd.updates.length : Int)) ∧
    (0 ≤ (StateDeputy.back_forward adjustF s).1.play_index ∧
      (StateDeputy.back_forward adjustF s).1.play_index < (rcd.updates.length : Int)) ∧
    ((s.terminate record_path now fs).1.play_index = (rcd.updates.length : Int) - 1 ∧
      0 ≤ (s.terminate record_path now fs).1.play_index ∧
      (s.terminate record_path now fs).1.play_index < (rcd.updates.length : Int)) ∧
    (s.play_index = (rcd.updates.length : Int) - 1 →
      (s.async_replay_tick adjustF).2 = none →
      (s.async_replay_tick adjustF).1.play_index = 0 ∧
      (s.async_replay_tick adjustF).1.replaying = true) := by
  obtain ⟨m, hm⟩ : ∃ m, rcd.updates.length = m + 1 := by
    cases hL : rcd.updates with
    | nil => exact absurd hL hne
    | cons x xs => exact ⟨xs.length, by simp [hL]⟩
  have hg : s.play_range = some (m + 1) := by rw [hrange, hm]
  rcases hrb : s.replay_by_index adjustF with ⟨s1, e⟩
  have hctl := replay_by_index_ctl adjustF s
  rw [hrb] at hctl
  have h1i : s1.play_index = s.play_index := hctl.2.2.2.2.2.1
  have h1y : s1.replaying = s.replaying := hctl.2.2.2.2.1
  have h1g : s1.play_range = some (m + 1) := hctl.2.2.2.2.2.2.1.trans hg
  refine ⟨?_, fast_forward_bounds adjustF s _ hrange hlo hhi,
    back_forward_bounds adjustF s _ hrange hlo hhi, ?_, ?_⟩
  · cases e with
    | some e =>
      rw [async_tick_error adjustF s s1 e hre hrb]
      show 0 ≤ s1.play_index ∧ s1.play_index < (rcd.updates.length : Int)
      rw [h1i]
      exact ⟨hlo, hhi⟩
    | none =>
      rw [async_tick_success adjustF s s1 m hre hrb h1g]
      by_cases hw : s1.play_index + 1 > (m : Int)
      · rw [if_pos hw]
        show (0 : Int) ≤ 0 ∧ (0 : Int) < (rcd.updates.length : Int)
        rw [hm]
        push_cast
        exact ⟨trivial, by omega⟩
      · rw [if_neg hw]
        show 0 ≤ s1.play_index + 1 ∧ s1.play_index + 1 < (rcd.updates.length : Int)
        rw [h1i] at hw ⊢
        rw [hm]
        push_cast at hw ⊢
        omega
  · rw [terminate_replaying record_path now fs s m hre hg]
    show (m : Int) = (rcd.updates.length : Int) - 1 ∧ (0 : Int) ≤ (m : Int) ∧
      (m : Int) < (rcd.updates.length : Int)
    rw [hm]
    push_cast
    omega
  · intro hlast hok
    cases e with
    | some e =>
      rw [async_tick_error adjustF s s1 e hre hrb] at hok
      exact absurd hok (by simp)
    | none =>
      have hw : s1.play_index + 1 > (m : Int) := by
        rw [h1i, hlast, hm]
        push_cast
        omega
      rw [async_tick_success adjustF s s1 m hre hrb h1g, if_pos hw]
      constructor
      · rfl
      · show s1.replaying = true
        rw [h1y, hre]

theorem c4_play_index_invariant_witness :
    0 ≤ (({ StateDeputy.init ([("aoi", ⟨(0 : Nat)⟩)] : Layers Nat) with
        replaying := true, play_index := 1, play_range := some 2,
        play_record := some ⟨[], [[⟨"aoi", RecordType.reload, 1⟩],
          [⟨"aoi", RecordType.reload, 2⟩]]⟩ }).async_replay_tick
      (fun a _ => a)).1.play_index ∧
    (({ StateDeputy.init ([("aoi", ⟨(0 : Nat)⟩)] : Layers Nat) with
        replaying := true, play_index := 1, play_range := some 2,
        play_record := some ⟨[], [[⟨"aoi", RecordType.reload, 1⟩],
          [⟨"aoi", RecordType.reload, 2⟩]]⟩ }).async_replay_tick
      (fun a _ => a)).1.play_index <
      (((⟨[], [[⟨"aoi", RecordType.reload, 1⟩], [⟨"aoi", RecordType.reload, 2⟩]]⟩ :
        Record Nat)).updates.length : Int) :=
  (c4_play_index_invariant (fun a _ => a) "record/" ⟨24, 1, 2, 3, 4, 5⟩ []
    { StateDeputy.init ([("aoi", ⟨(0 : Nat)⟩)] : Layers Nat) with
        replaying := true, play_index := 1, play_range := some 2,
        play_record := some ⟨[], [[⟨"aoi", RecordType.reload, 1⟩],
          [⟨"aoi", RecordType.reload, 2⟩]]⟩ }
    ⟨[], [[⟨"aoi", RecordType.reload, 1⟩], [⟨"aoi", RecordType.reload, 2⟩]]⟩
    rfl rfl rfl (by decide) (by decide) (by decide)).1

/-- The non-emptiness invariant of the in-progress record's steps: every step
in `record.updates` holds at least one `RecordUnit`. -/
def stepsNonEmpty (s : StateDeputy Data) : Prop :=
  ∀ step ∈ s.record.updates, step ≠ []

/-- Appending a unit onto the last step keeps every step non-empty. -/
lemma appendToLast_nonempty (u : RecordUnit Data) :
    ∀ steps : List (List (RecordUnit Data)), (∀ st ∈ steps, st ≠ []) →
      ∀ st ∈ appendToLast steps u, st ≠ [] := by
  intro steps
  induction steps with
  | nil =>
    intro _ st hst
    simp [appendToLast] at hst
  | cons x rest ih =>
    intro h st hst
    cases rest with
    | nil =>
      simp only [appendToLast, List.mem_singleton] at hst
      subst hst
      simp
    | cons y rest2 =>
      simp only [appendToLast, List.mem_cons] at hst
      rcases hst with h1 | h2
      · subst h1
        exact h st (by simp)
      · exact ih (fun st2 hst2 => h st2 (List.mem_cons_of_mem x hst2)) st h2

/-- Either router entry point preserves the step non-emptiness invariant. -/
lemma stepsNonEmpty_router {mutate : LayerBase Data → LayerBase Data}
    {u : RecordUnit Data} {ns : Bool} {s : StateDeputy Data}
    {out : StateDeputy Data × Option PyError}
    (hout : routerOutcome mutate u ns s out) (h : stepsNonEmpty s) :
    stepsNonEmpty out.1 := by
  obtain ⟨hctl, hinit, hnone, hsome⟩ := hout
  cases hl : lookupLayer s.layers u.layer_tag with
  | none =>
    rw [hnone hl]
    exact h
  | some l =>
    obtain ⟨hlay, herr, hfalse, hsucc⟩ := hsome l hl
    by_cases hr : s.recording = true
    · by_cases hcase : ns = true ∨ s.record.updates ≠ []
      · obtain ⟨_, hupd⟩ := hsucc ⟨hr, hcase⟩
        intro st hst
        rw [hupd] at hst
        by_cases hn : ns = true
        · rw [if_pos hn] at hst
          rcases List.mem_append.mp hst with h1 | h2
          · exact h st h1
          · rw [List.mem_singleton.mp h2]
            simp
        · rw [if_neg hn] at hst
          exact appendToLast_nonempty u s.record.updates h st hst
      · push_neg at hcase
        obtain ⟨hn, hu⟩ := hcase
        intro st hst
        rw [(herr ⟨hr, by simpa using hn, hu⟩).2] at hst
        exact h st hst
    · have hr2 : s.recording = false := by simpa using hr
      intro st hst
      rw [(hfalse hr2).2] at hst
      exact h st hst

lemma stepsNonEmpty_reload (s : StateDeputy Data) (tag : String) (d : Data)
    (ns : Bool) (h : stepsNonEmpty s) : stepsNonEmpty (s.reload tag d ns).1 :=
  stepsNonEmpty_router (reload_outcome s tag d ns) h

lemma stepsNonEmpty_adjust (adjustF : Data → Data → Data) (s : StateDeputy Data)
    (tag : String) (d : Data) (ns : Bool) (h : stepsNonEmpty s) :
    stepsNonEmpty (StateDeputy.adjust adjustF s tag d ns).1 :=
  stepsNonEmpty_router (adjust_outcome adjustF s tag d ns) h

lemma stepsNonEmpty_applyInitial (units : List (RecordUnit Data)) :
    ∀ s : StateDeputy Data, stepsNonEmpty s → stepsNonEmpty (applyInitial s units).1 := by
  induction units with
  | nil => intro s h; exact h
  | cons u rest ih =>
    intro s h
    simp only [applyInitial]
    rcases hc : s.reload u.layer_tag u.record_data true with ⟨s1, e⟩
    have h1 : stepsNonEmpty s1 := by
      have h2 := stepsNonEmpty_reload s u.layer_tag u.record_data true h
      rwa [hc] at h2
    cases e
    · exact ih s1 h1
    · exact h1

lemma stepsNonEmpty_applyStepUnits (adjustF : Data → Data → Data)
    (us : List (RecordUnit Data)) :
    ∀ s : StateDeputy Data, stepsNonEmpty s →
      stepsNonEmpty (applyStepUnits adjustF s us).1 := by
  induction us with
  | nil => intro s h; exact h
  | cons u rest ih =>
    intro s h
    cases hu : u.record_type
    · simp only [applyStepUnits, hu]
      rcases hc : s.reload u.layer_tag u.record_data true with ⟨s1, e⟩
      have h1 : stepsNonEmpty s1 := by
        have h2 := stepsNonEmpty_reload s u.layer_tag u.record_data true h
        rwa [hc] at h2
      cases e
      · exact ih s1 h1
      · exact h1
    · simp only [applyStepUnits, hu]
      rcases hc : StateDeputy.adjust adjustF s u.layer_tag u.record_data true with ⟨s1, e⟩
      have h1 : stepsNonEmpty s1 := by
        have h2 := stepsNonEmpty_adjust adjustF s u.layer_tag u.record_data true h
        rwa [hc] at h2
      cases e
      · exact ih s1 h1
      · exact h1

lemma stepsNonEmpty_replay_by_index (adjustF : Data → Data → Data)
    (s : StateDeputy Data) (h : stepsNonEmpty s) :
    stepsNonEmpty (s.replay_by_index adjustF).1 := by
  unfold StateDeputy.replay_by_index
  split
  · exact h
  · split
    · exact h
    · exact h
    · split
      · exact h
      · exact stepsNonEmpty_applyStepUnits adjustF _ s h

lemma stepsNonEmpty_start_replay (s : StateDeputy Data) (rcd : Record Data)
    (h : stepsNonEmpty s) : stepsNonEmpty (s.start_replay rcd).1 := by
  unfold StateDeputy.start_replay
  rcases hai : applyInitial s rcd.initial with ⟨s1, e⟩
  have h1 : stepsNonEmpty s1 := by
    have h2 := stepsNonEmpty_applyInitial rcd.initial s h
    rwa [hai] at h2
  cases e
  · cases rcd.updates
    · exact h1
    · exact h1
  · exact h1

/-- `terminate` never rewrites the in-progress record. -/
lemma terminate_record_eq (record_path : String) (now : Timestamp)
    (fs : FileStore Data) (s : StateDeputy Data) :
    (s.terminate record_path now fs).1.record = s.record := by
  unfold StateDeputy.terminate
  split
  · split <;> rfl
  · split <;> rfl

/-- C9: every controller operation preserves the invariant that each step of
the in-progress record is a non-empty unit list — a new step is only ever
opened together with the append of its first `RecordUnit`. -/
theorem c9_steps_nonempty_invariant (adjustF : Data → Data → Data)
    (record_path : String) (now : Timestamp) (fs : FileStore Data)
    (s : StateDeputy Data) (tag : String) (d : Data) (ns : Bool)
    (rcd : Record Data) (h : stepsNonEmpty s) :
    stepsNonEmpty (s.reload tag d ns).1 ∧
    stepsNonEmpty (StateDeputy.adjust adjustF s tag d ns).1 ∧
    stepsNonEmpty s.start_record ∧
    stepsNonEmpty (s.start_replay rcd).1 ∧
    stepsNonEmpty (s.replay_by_index adjustF).1 ∧
    stepsNonEmpty (s.terminate record_path now fs).1 := by
  refine ⟨stepsNonEmpty_reload s tag d ns h, stepsNonEmpty_adjust adjustF s tag d ns h,
    ?_, stepsNonEmpty_start_replay s rcd h, stepsNonEmpty_replay_by_index adjustF s h, ?_⟩
  · unfold StateDeputy.start_record
    split
    · exact h
    · intro st hst
      simp at hst
  · intro st hst
    rw [terminate_record_eq record_path now fs s] at hst
    exact h st hst

theorem c9_steps_nonempty_invariant_witness :
    stepsNonEmpty (({ StateDeputy.init ([("aoi", ⟨(0 : Nat)⟩)] : Layers Nat) with
        recording := true,
        record := ⟨[], [[⟨"aoi", RecordType.reload, 3⟩]]⟩ }).reload "aoi" 5 true).1 :=
  (c9_steps_nonempty_invariant (fun a _ => a) "record/" ⟨24, 1, 2, 3, 4, 5⟩ []
    { StateDeputy.init ([("aoi", ⟨(0 : Nat)⟩)] : Layers Nat) with
        recording := true, record := ⟨[], [[⟨"aoi", RecordType.reload, 3⟩]]⟩ }
    "aoi" 5 true ⟨[], []⟩ (by simp [stepsNonEmpty])).1

/-- The per-layer effect of one `RecordUnit`, dispatched on its kind exactly as
`replay_by_index` dispatches. -/
def unitMutate (adjustF : Data → Data → Data) (u : RecordUnit Data) :
    LayerBase Data → LayerBase Data :=
  match u.record_type with
  | RecordType.reload => fun l => l.reload u.record_data
  | RecordType.adjust => fun l => l.adjust adjustF u.record_data

lemma applyUnitL_eq (adjustF : Data → Data → Data) (layers : Layers Data)
    (u : RecordUnit Data) :
    applyUnitL adjustF layers u =
      (lookupLayer layers u.layer_tag).map
        (fun l => updateLayer layers u.layer_tag (unitMutate adjustF u l)) := by
  obtain ⟨utag, urt, ud⟩ := u
  unfold applyUnitL unitMutate
  cases urt <;> cases lookupLayer layers utag <;> rfl

lemma flatten_appendToLast (steps : List (List (RecordUnit Data)))
    (u : RecordUnit Data) (h : steps ≠ []) :
    (appendToLast steps u).flatten = steps.flatten ++ [u] := by
  induction steps with
  | nil => exact absurd rfl h
  | cons x rest ih =>
    cases rest with
    | nil => simp [appendToLast]
    | cons y rest2 =>
      simp only [appendToLast, List.flatten_cons]
      rw [ih (by simp)]
      simp

lemma applyCall_outcome (adjustF : Data → Data → Data) (s : StateDeputy Data)
    (c : CallSpec Data) :
    routerOutcome (unitMutate adjustF c.toUnit) c.toUnit c.new_step s
      (applyCall adjustF s c) := by
  obtain ⟨rt, tag, d, ns⟩ := c
  cases rt
  · exact reload_outcome s tag d ns
  · exact adjust_outcome adjustF s tag d ns

/-- One successful recorded call: the layer evolves by the unit's pure effect
and exactly that unit lands at the end of the flattened recording log. -/
lemma applyCall_ok (adjustF : Data → Data → Data) (s : StateDeputy Data)
    (c : CallSpec Data) (s1 : StateDeputy Data)
    (hrec : s.recording = true)
    (hcall : applyCall adjustF s c = (s1, none)) :
    s1.recording = true ∧
    s1.record.initial = s.record.initial ∧
    applyUnitL adjustF s.layers c.toUnit = some s1.layers ∧
    s1.record.updates.flatten = s.record.updates.flatten ++ [c.toUnit] := by
  have hout := applyCall_outcome adjustF s c
  rw [hcall] at hout
  obtain ⟨hctl, hinit, hnone, hsome⟩ := hout
  cases hl : lookupLayer s.layers c.toUnit.layer_tag with
  | none =>
    have h2 := hnone hl
    injection h2 with _ h3
    exact absurd h3 (by simp)
  | some l =>
    obtain ⟨hlay, herr, _, hsucc⟩ := hsome l hl
    have hcase : c.new_step = true ∨ s.record.updates ≠ [] := by
      by_cases hn : c.new_step = true
      · exact Or.inl hn
      · by_cases hu : s.record.updates = []
        · have h2 := (herr ⟨hrec, by simpa using hn, hu⟩).1
          simp at h2
        · exact Or.inr hu
    obtain ⟨_, hupd⟩ := hsucc ⟨hrec, hcase⟩
    have hctl4 : s1.recording = s.recording := hctl.2.2.2.1
    have hlay1 : s1.layers =
        updateLayer s.layers c.toUnit.layer_tag (unitMutate adjustF c.toUnit l) := hlay
    have hupd1 : s1.record.updates =
        (if c.new_step then s.record.updates ++ [[c.toUnit]]
         else appendToLast s.record.updates c.toUnit) := hupd
    refine ⟨hctl4.trans hrec, hinit, ?_, ?_⟩
    · rw [applyUnitL_eq, hl, Option.map_some', hlay1]
    · rw [hupd1]
      by_cases hn : c.new_step = true
      · rw [if_pos hn]
        simp
      · rw [if_neg hn]
        have hne : s.record.updates ≠ [] := by
          rcases hcase with h1 | h1
          · exact absurd h1 hn
          · exact h1
        exact flatten_appendToLast s.record.updates c.toUnit hne

/-- Direct recording phase: a successful call sequence on a recording deputy
evolves the layers by the pure per-unit semantics and leaves the flattened
recording log extended by exactly the call units, in order. -/
lemma applyCalls_spec (adjustF : Data → Data → Data) (cs : List (CallSpec Data)) :
    ∀ s : StateDeputy Data, s.recording = true →
      (applyCalls adjustF s cs).2 = none →
      (applyCalls adjustF s cs).1.recording = true ∧
      (applyCalls adjustF s cs).1.record.initial = s.record.initial ∧
      applyUnitsL adjustF s.layers (cs.map CallSpec.toUnit) =
        some (applyCalls adjustF s cs).1.layers ∧
      (applyCalls adjustF s cs).1.record.updates.flatten =
        s.record.updates.flatten ++ cs.map CallSpec.toUnit := by
  induction cs with
  | nil =>
    intro s hrec _
    exact ⟨hrec, rfl, rfl, by simp [applyCalls]⟩
  | cons c rest ih =>
    intro s hrec hok
    simp only [applyCalls] at hok ⊢
    rcases hc : applyCall adjustF s c with ⟨s1, e⟩
    rw [hc] at hok
    cases e with
    | some e => simp at hok
    | none =>
      obtain ⟨h1rec, h1init, h1unit, h1flat⟩ := applyCall_ok adjustF s c s1 hrec hc
      obtain ⟨h2rec, h2init, h2units, h2flat⟩ := ih s1 h1rec hok
      refine ⟨h2rec, h2init.trans h1init, ?_, ?_⟩
      · simp only [List.map_cons, applyUnitsL]
        rw [h1unit]
        exact h2units
      · have h3 : (applyCalls adjustF s1 rest).1.record.updates.flatten =
            s.record.updates.flatten ++ (c.toUnit :: rest.map CallSpec.toUnit) := by
          rw [h2flat, h1flat]
          simp
        exact h3

lemma lookupLayer_append_right (P T : Layers Data) (tag : String)
    (h : tag ∉ layerTags P) :
    lookupLayer (P ++ T) tag = lookupLayer T tag := by
  induction P with
  | nil => rfl
  | cons p P' ih =>
    obtain ⟨t, l⟩ := p
    have h1 : ¬t = tag := by
      intro he
      exact h (by simp [layerTags, he])
    have h2 : tag ∉ layerTags P' := by
      intro hm
      refine h ?_
      simp only [layerTags, List.map_cons, List.mem_cons]
      exact Or.inr hm
    simp only [List.cons_append, lookupLayer]
    rw [if_neg h1]
    exact ih h2

lemma updateLayer_append_right (P T : Layers Data) (tag : String)
    (x : LayerBase Data) (h : tag ∉ layerTags P) :
    updateLayer (P ++ T) tag x = P ++ updateLayer T tag x := by
  induction P with
  | nil => rfl
  | cons p P' ih =>
    obtain ⟨t, l⟩ := p
    have h1 : ¬t = tag := by
      intro he
      exact h (by simp [layerTags, he])
    have h2 : tag ∉ layerTags P' := by
      intro hm
      refine h ?_
      simp only [layerTags, List.map_cons, List.mem_cons]
      exact Or.inr hm
    simp only [List.cons_append, updateLayer]
    rw [if_neg h1]
    exact congrArg (fun ys => (t, l) :: ys) (ih h2)

/-- Replaying the per-layer snapshot of a dict `L` through `reload` on a fresh
deputy whose dict carries the same tags restores exactly `L` (generalised over
an already-processed prefix `P`). -/
lemma applyInitial_snapshot_aux :
    ∀ (L P T : Layers Data) (t : StateDeputy Data),
      t.recording = false →
      t.layers = P ++ T →
      layerTags T = layerTags L →
      (∀ tg ∈ layerTags L, tg ∉ layerTags P) →
      (layerTags L).Nodup →
      applyInitial t (snapshotUnits L) = ({ t with layers := P ++ L }, none) := by
  intro L
  induction L with
  | nil =>
    intro P T t hrec hlay hkeys _ _
    have hT : T = [] := List.map_eq_nil_iff.mp hkeys
    subst hT
    have h2 : P ++ ([] : Layers Data) = t.layers := hlay.symm
    rw [h2]
    rfl
  | cons hd L' ih =>
    intro P T t hrec hlay hkeys hdisj hnd
    obtain ⟨tag, l⟩ := hd
    cases T with
    | nil => simp [layerTags] at hkeys
    | cons p T' =>
      obtain ⟨t0tag, l0⟩ := p
      have hkeys2 : t0tag = tag ∧ layerTags T' = layerTags L' := by
        simpa [layerTags] using hkeys
      obtain ⟨heq, hk2⟩ := hkeys2
      subst heq
      have htag_not_P : t0tag ∉ layerTags P := hdisj t0tag (by simp [layerTags])
      have hlook : lookupLayer t.layers t0tag = some l0 := by
        rw [hlay, lookupLayer_append_right P _ t0tag htag_not_P]
        simp [lookupLayer]
      have hrel := reload_not_recording t t0tag l.data true l0 hrec hlook
      have hupd : updateLayer t.layers t0tag (LayerBase.reload l0 l.data) =
          P ++ (t0tag, l) :: T' := by
        rw [hlay, updateLayer_append_right P _ t0tag _ htag_not_P]
        have h3 : updateLayer ((t0tag, l0) :: T') t0tag (LayerBase.reload l0 l.data) =
            (t0tag, l) :: T' := by
          simp only [updateLayer]
          rw [if_pos trivial]
          rfl
        rw [h3]
      have hnd3 : (t0tag :: layerTags L').Nodup := hnd
      have hnd2 := List.nodup_cons.mp hnd3
      show applyInitial t
          ((⟨t0tag, RecordType.reload, l.data⟩ : RecordUnit Data) :: snapshotUnits L') = _
      simp only [applyInitial]
      rw [hrel, hupd]
      have ihr := ih (P ++ [(t0tag, l)]) T'
        ({ t with layers := P ++ (t0tag, l) :: T' }) hrec
        (by simp)
        hk2
        (by
          intro tg htg hmem
          simp only [layerTags, List.map_append, List.map_cons, List.map_nil,
            List.mem_append, List.mem_singleton] at hmem
          rcases hmem with hm1 | hm2
          · have hmm : tg ∈ layerTags ((t0tag, l) :: L') := by
              show tg ∈ t0tag :: layerTags L'
              exact List.mem_cons_of_mem _ htg
            exact hdisj tg hmm hm1
          · exact hnd2.1 (by rw [← hm2]; exact htg))
        hnd2.2
      refine ihr.trans ?_
      rw [show (P ++ [(t0tag, l)]) ++ L' = P ++ ((t0tag, l) :: L') from by simp]

lemma applyInitial_snapshot (t : StateDeputy Data) (L : Layers Data)
    (hrec : t.recording = false) (hkeys : layerTags t.layers = layerTags L)
    (hnd : (layerTags L).Nodup) :
    applyInitial t (snapshotUnits L) = ({ t with layers := L }, none) := by
  have h := applyInitial_snapshot_aux L [] t.layers t hrec (by simp) hkeys
    (by simp [layerTags]) hnd
  simpa using h

/-- Replaying one unit list through the router on a non-recording deputy is
exactly the pure per-layer fold (when that fold succeeds). -/
lemma applyStepUnits_ok (adjustF : Data → Data → Data)
    (us : List (RecordUnit Data)) :
    ∀ (s : StateDeputy Data) (L2 : Layers Data),
      s.recording = false → applyUnitsL adjustF s.layers us = some L2 →
      applyStepUnits adjustF s us = ({ s with layers := L2 }, none) := by
  induction us with
  | nil =>
    intro s L2 _ hus
    simp only [applyUnitsL] at hus
    injection hus with hus
    rw [← hus]
    rfl
  | cons u rest ih =>
    intro s L2 hrec hus
    simp only [applyUnitsL] at hus
    rcases hL1 : applyUnitL adjustF s.layers u with _ | L1
    · rw [hL1] at hus
      simp at hus
    · rw [hL1] at hus
      rw [applyUnitL_eq] at hL1
      rcases hl : lookupLayer s.layers u.layer_tag with _ | l
      · rw [hl] at hL1
        simp at hL1
      · rw [hl, Option.map_some'] at hL1
        injection hL1 with hL1
        obtain ⟨utag, urt, ud⟩ := u
        cases urt
        · have hrel := reload_not_recording s utag ud true l hrec hl
          simp only [applyStepUnits]
          rw [hrel]
          have hus2 : applyUnitsL adjustF
              (updateLayer s.layers utag (LayerBase.reload l ud)) rest = some L2 := by
            rw [← hL1] at hus
            exact hus
          exact ih { s with layers := updateLayer s.layers utag (LayerBase.reload l ud) }
            L2 hrec hus2
        · have hrel := adjust_not_recording adjustF s utag ud true l hrec hl
          simp only [applyStepUnits]
          rw [hrel]
          have hus2 : applyUnitsL adjustF
              (updateLayer s.layers utag (LayerBase.adjust adjustF l ud)) rest = some L2 := by
            rw [← hL1] at hus
            exact hus
          exact ih { s with layers := updateLayer s.layers utag (LayerBase.adjust adjustF l ud) }
            L2 hrec hus2

/-- `replay_by_index` on a non-recording deputy with a valid cursor is exactly
the pure fold of the addressed step. -/
lemma replay_by_index_ok (adjustF : Data → Data → Data) (s : StateDeputy Data)
    (rcd : Record Data) (step : List (RecordUnit Data)) (L2 : Layers Data)
    (hrec : s.recording = false) (hpr : s.play_record = some rcd)
    (hin : inPlayRange s.play_index s.play_range = some true)
    (hstep : rcd.updates[s.play_index.toNat]? = some step)
    (hus : applyUnitsL adjustF s.layers step = some L2) :
    s.replay_by_index adjustF = ({ s with layers := L2 }, none) := by
  unfold StateDeputy.replay_by_index
  split
  · rename_i h
    rw [h] at hpr
    exact absurd hpr (by simp)
  · rename_i rcd2 h
    rw [hpr] at h
    injection h with h
    subst h
    split
    · rename_i h2
      rw [h2] at hin
      exact absurd hin (by simp)
    · rename_i h2
      rw [h2] at hin
      injection hin with hin
      exact absurd hin.symm (by simp)
    · split
      · rename_i h3
        rw [h3] at hstep
        exact absurd hstep (by simp)
      · rename_i step2 h3
        rw [h3] at hstep
        injection hstep with hstep
        subst hstep
        exact applyStepUnits_ok adjustF step2 s L2 hrec hus

lemma applyUnitsL_append (adjustF : Data → Data → Data)
    (us vs : List (RecordUnit Data)) :
    ∀ L : Layers Data, applyUnitsL adjustF L (us ++ vs) =
      (applyUnitsL adjustF L us).bind (fun L1 => applyUnitsL adjustF L1 vs) := by
  induction us with
  | nil => intro L; rfl
  | cons u rest ih =>
    intro L
    simp only [List.cons_append, applyUnitsL]
    cases applyUnitL adjustF L u
    · rfl
    · exact ih _

/-- Running the replay loop for the remaining `k` steps applies exactly the
flattened suffix of the record and parks the wrapped cursor at 0. -/
lemma ticks_run (adjustF : Data → Data → Data) (rcd : Record Data) :
    ∀ (k : Nat) (s : StateDeputy Data) (L2 : Layers Data),
      s.recording = false → s.replaying = true →
      s.play_record = some rcd →
      s.play_range = some rcd.updates.length →
      s.play_index = ((rcd.updates.length - k : Nat) : Int) →
      k ≤ rcd.updates.length → 1 ≤ k →
      applyUnitsL adjustF s.layers
        ((rcd.updates.drop (rcd.updates.length - k)).flatten) = some L2 →
      ticks adjustF s k = ({ s with layers := L2, play_index := 0 }, none) := by
  intro k
  induction k with
  | zero =>
    intro s L2 _ _ _ _ _ _ h1k _
    exact absurd h1k (by decide)
  | succ k ih =>
    intro s L2 hrec hrep hpr hrange hidx hkn _ hus
    have hjlt : rcd.updates.length - (k + 1) < rcd.updates.length := by omega
    rw [List.drop_eq_getElem_cons hjlt, List.flatten_cons, applyUnitsL_append] at hus
    rcases hL1 : applyUnitsL adjustF s.layers
        (rcd.updates[rcd.updates.length - (k + 1)]) with _ | L1
    · rw [hL1] at hus
      simp at hus
    · rw [hL1, Option.some_bind] at hus
      have hin : inPlayRange s.play_index s.play_range = some true := by
        rw [hrange, hidx]
        unfold inPlayRange
        simp only [Option.some.injEq, decide_eq_true_eq]
        constructor <;> omega
      have hstep : rcd.updates[s.play_index.toNat]? =
          some (rcd.updates[rcd.updates.length - (k + 1)]) := by
        rw [hidx]
        simp [hjlt]
      have hrbi := replay_by_index_ok adjustF s rcd _ L1 hrec hpr hin hstep hL1
      obtain ⟨m, hm⟩ : ∃ m, rcd.updates.length = m + 1 :=
        ⟨rcd.updates.length - 1, by omega⟩
      have h1g : ({ s with layers := L1 } : StateDeputy Data).play_range =
          some (m + 1) := by
        show s.play_range = some (m + 1)
        rw [hrange, hm]
      have htick := async_tick_success adjustF s { s with layers := L1 } m hrep hrbi h1g
      simp only [ticks]
      rw [htick]
      cases k with
      | zero =>
        have hw : ({ s with layers := L1 } : StateDeputy Data).play_index + 1 > (m : Int) := by
          show s.play_index + 1 > (m : Int)
          rw [hidx, hm]
          omega
        rw [if_pos hw]
        have hdone : rcd.updates.drop (rcd.updates.length - (0 + 1) + 1) = [] := by
          apply List.drop_eq_nil_of_le
          omega
        rw [hdone] at hus
        simp only [List.flatten_nil, applyUnitsL] at hus
        injection hus with hus
        rw [hus]
        rfl
      | succ k2 =>
        have hw : ¬(({ s with layers := L1 } : StateDeputy Data).play_index + 1 > (m : Int)) := by
          show ¬(s.play_index + 1 > (m : Int))
          rw [hidx, hm]
          have : k2 + 2 ≤ m + 1 := by omega
          omega
        rw [if_neg hw]
        have hidx2 : ({ { s with layers := L1 } with
            play_index := ({ s with layers := L1 } : StateDeputy Data).play_index + 1 } :
              StateDeputy Data).play_index =
            ((rcd.updates.length - (k2 + 1) : Nat) : Int) := by
          show s.play_index + 1 = ((rcd.updates.length - (k2 + 1) : Nat) : Int)
          rw [hidx]
          omega
        have hus2 : applyUnitsL adjustF L1
            ((rcd.updates.drop (rcd.updates.length - (k2 + 1))).flatten) = some L2 := by
          have harith : rcd.updates.length - (k2 + 1 + 1) + 1 =
              rcd.updates.length - (k2 + 1) := by omega
          rw [harith] at hus
          exact hus
        exact ih { { s with layers := L1 } with
            play_index := ({ s with layers := L1 } : StateDeputy Data).play_index + 1 }
          L2 hrec hrep hpr hrange hidx2 (by omega) (by omega) hus2

/-- Replaying a whole record (`start_replay` plus one full pass of the
`async_replay` loop) on a fresh deputy over a same-tagged layer dict ends with
exactly the layers the pure per-unit fold of the record produces. -/
lemma replayRecord_ok (adjustF : Data → Data → Data) (L2v L : Layers Data)
    (rcd : Record Data) (LF : Layers Data)
    (hinit : rcd.initial = snapshotUnits L)
    (hkeys : layerTags L2v = layerTags L)
    (hnd : (layerTags L).Nodup)
    (hflat : applyUnitsL adjustF L rcd.updates.flatten = some LF) :
    (replayRecord adjustF (StateDeputy.init L2v) rcd).2 = none ∧
    (replayRecord adjustF (StateDeputy.init L2v) rcd).1.layers = LF := by
  have hA : applyInitial (StateDeputy.init L2v) rcd.initial =
      ({ StateDeputy.init L2v with layers := L }, none) := by
    rw [hinit]
    exact applyInitial_snapshot (StateDeputy.init L2v) L rfl hkeys hnd
  unfold replayRecord StateDeputy.start_replay
  rw [hA]
  cases hupd : rcd.updates with
  | nil =>
    rw [hupd] at hflat
    simp only [List.flatten_nil, applyUnitsL] at hflat
    injection hflat with hflat
    exact ⟨rfl, hflat⟩
  | cons st rest =>
    have hrun := ticks_run adjustF rcd (st :: rest).length
      { StateDeputy.init L2v with
        layers := L, play_record := some rcd, play_index := 0,
        play_range := some (st :: rest).length,
        replaying := true, suspended := true } LF
      rfl rfl rfl
      (by rw [hupd])
      (by rw [hupd]; simp)
      (by rw [hupd])
      (by simp)
      (by
        rw [hupd]
        show applyUnitsL adjustF L
          (((st :: rest).drop ((st :: rest).length - (st :: rest).length)).flatten) = some LF
        rw [Nat.sub_self, List.drop_zero]
        rw [hupd] at hflat
        exact hflat)
    exact ⟨congrArg Prod.snd hrun, congrArg (fun p => p.1.layers) hrun⟩

/-- C1: record/replay equivalence. Start recording on a fresh deputy over
layer dict `L1`, run any successful sequence of `reload`/`adjust` calls, and
take the resulting record. Replaying that record through a fresh deputy over a
dict with the same tags (`start_replay`, then one `async_replay` iteration per
step) succeeds and leaves that deputy's layers exactly equal to the layers the
original call sequence produced. -/
theorem c1_record_replay_equivalence (adjustF : Data → Data → Data)
    (L1 L2 : Layers Data) (cs : List (CallSpec Data))
    (hkeys : layerTags L2 = layerTags L1)
    (hnd : (layerTags L1).Nodup)
    (hok : (applyCalls adjustF (StateDeputy.init L1).start_record cs).2 = none) :
    (replayRecord adjustF (StateDeputy.init L2)
        (applyCalls adjustF (StateDeputy.init L1).start_record cs).1.record).2 = none ∧
    (replayRecord adjustF (StateDeputy.init L2)
        (applyCalls adjustF (StateDeputy.init L1).start_record cs).1.record).1.layers =
      (applyCalls adjustF (StateDeputy.init L1).start_record cs).1.layers := by
  obtain ⟨hfrec, hfinit, hfunits, hfflat⟩ :=
    applyCalls_spec adjustF cs (StateDeputy.init L1).start_record rfl hok
  have hinit2 : (applyCalls adjustF (StateDeputy.init L1).start_record cs).1.record.initial =
      snapshotUnits L1 := hfinit
  have hflat2 : applyUnitsL adjustF L1
      (applyCalls adjustF (StateDeputy.init L1).start_record cs).1.record.updates.flatten =
      some (applyCalls adjustF (StateDeputy.init L1).start_record cs).1.layers := by
    have he : (applyCalls adjustF
        (StateDeputy.init L1).start_record cs).1.record.updates.flatten =
        cs.map CallSpec.toUnit := by
      rw [hfflat]
      rfl
    rw [he]
    exact hfunits
  exact replayRecord_ok adjustF L2 L1 _ _ hinit2 hkeys hnd hflat2

theorem c1_record_replay_equivalence_witness :
    (replayRecord (fun a b => a + b)
        (StateDeputy.init ([("aoi", ⟨9⟩), ("grid", ⟨8⟩)] : Layers Nat))
        (applyCalls (fun a b => a + b)
          (StateDeputy.init ([("aoi", ⟨1⟩), ("grid", ⟨2⟩)] : Layers Nat)).start_record
          [⟨RecordType.reload, "aoi", 5, true⟩,
            ⟨RecordType.adjust, "grid", 3, false⟩]).1.record).2 = none ∧
    (replayRecord (fun a b => a + b)
        (StateDeputy.init ([("aoi", ⟨9⟩), ("grid", ⟨8⟩)] : Layers Nat))
        (applyCalls (fun a b => a + b)
          (StateDeputy.init ([("aoi", ⟨1⟩), ("grid", ⟨2⟩)] : Layers Nat)).start_record
          [⟨RecordType.reload, "aoi", 5, true⟩,
            ⟨RecordType.adjust, "grid", 3, false⟩]).1.record).1.layers =
      (applyCalls (fun a b => a + b)
        (StateDeputy.init ([("aoi", ⟨1⟩), ("grid", ⟨2⟩)] : Layers Nat)).start_record
        [⟨RecordType.reload, "aoi", 5, true⟩,
          ⟨RecordType.adjust, "grid", 3, false⟩]).1.layers :=
  c1_record_replay_equivalence (fun a b => a + b)
    ([("aoi", ⟨1⟩), ("grid", ⟨2⟩)] : Layers Nat)
    ([("aoi", ⟨9⟩), ("grid", ⟨8⟩)] : Layers Nat)
    [⟨RecordType.reload, "aoi", 5, true⟩, ⟨RecordType.adjust, "grid", 3, false⟩]
    (by decide) (by decide) (by decide)

end VisualPlat
